import Mathlib

/-!
Verification development for the openevm suspend/resume execution engine.

The definitions below are a shallow embedding, translated from the Rust
sources of the repository:
  * `src/evm_loader/program/src/account/state.rs` (`StateAccount`: the
    continuation record, revision ledger, gas meter),
  * `src/evm_loader/program/src/executor/state.rs` (`ExecutorState`: the
    speculative action log with snapshot/commit/revert),
  * `src/evm_loader/program/src/instruction/transaction_step.rs`
    (`do_continue` / `finalize`: the step driver).

Machine integers (`u64`, `U256`) are modelled as `Nat` with explicit
saturation / checked bounds at the points where the source uses
`saturating_add` / `checked_mul` / `checked_sub` / `checked_add`.
Rust `Result` is modelled as `Except`, panics (`unwrap`, `expect`,
`assert!`, indexing a missing map key) as `Option` with `none` for the
panic.  Solana `Pubkey`s, EVM addresses and 32-byte words are abstracted
to `Nat`: the code never inspects their representation, only compares
them for equality.
-/

namespace OpenEvm

/-- Solana account key (`solana_program::pubkey::Pubkey`), abstracted. -/
abbrev Pubkey := Nat

/-- EVM 20-byte address (`types::Address`), abstracted. -/
abbrev Address := Nat

/-- A 32-byte EVM word (`[u8; 32]`), abstracted; `0` models the all-zero word
returned by `<[u8; 32]>::default()`. -/
abbrev Byte32 := Nat

/-- Largest value representable in an `ethnum::U256`. -/
def U256MAX : Nat := 2 ^ 256 - 1

/-- `U256::saturating_add`. -/
def satAdd (a b : Nat) : Nat := min (a + b) U256MAX

/-- `U256::checked_mul` (`none` models overflow). -/
def checkedMul (a b : Nat) : Option Nat :=
  if a * b ≤ U256MAX then some (a * b) else none

/-- `U256::checked_add` (`none` models overflow). -/
def checkedAdd (a b : Nat) : Option Nat :=
  if a + b ≤ U256MAX then some (a + b) else none

/-- `U256::checked_sub` (`none` models underflow). -/
def checkedSub (a b : Nat) : Option Nat :=
  if b ≤ a then some (a - b) else none

/-- Account tag byte of a program-owned account.  The concrete `u8` values of
`TAG_HOLDER` / `TAG_STATE` / `TAG_STATE_FINALIZED` are defined outside the
sources in scope; only their distinctness is relied upon, so the tag is
modelled as an inductive. -/
inductive Tag where
  | holder
  | state
  | stateFinalized
  | accountBalance
  | accountContract
  | storageCell
  | other (n : Nat)
  deriving DecidableEq

/-- The `crate::error::Error` variants reachable from the embedded code. -/
inductive EvmError where
  | OutOfGas (limit used : Nat)
  | IntegerOverflow
  | OperatorBalanceMissing
  | OperatorBalanceInvalidChainId
  | InsufficientBalance (source : Address) (chain_id : Nat) (value : Nat)
  | InvalidTransferToken (source : Address) (chain_id : Nat)
  | AccountInvalidTag (key : Pubkey) (tag : Tag)
  | Custom (msg : String)
  deriving DecidableEq

/-- `evm::ExitStatus` (variants as matched in `transaction_step.rs`). -/
inductive ExitStatus where
  | stop
  | ret (data : List Nat)
  | suicide
  | revert (data : List Nat)
  | stepLimit
  deriving DecidableEq

/-- `solana_program::instruction::AccountMeta`. -/
structure AccountMetaM where
  pubkey : Pubkey
  is_signer : Bool
  is_writable : Bool
  deriving DecidableEq

/-- `executor::action::Action`: the tagged speculative-mutation variants,
reconstructed from their uses in `executor/state.rs` (the enum's defining
file is outside the sources in scope, but every field appears at a use
site). -/
inductive Action where
  | transfer (source target : Address) (chain_id : Nat) (value : Nat)
  | burn (source : Address) (chain_id : Nat) (value : Nat)
  | evmIncrementNonce (address : Address) (chain_id : Nat)
  | evmSetCode (address : Address) (chain_id : Nat) (code : List Nat)
  | evmSetStorage (address : Address) (index : Nat) (value : Byte32)
  | evmSetTransientStorage (address : Address) (index : Nat) (value : Byte32)
  | externalInstruction (program_id : Pubkey) (data : List Nat)
      (accounts : List AccountMetaM) (seeds : List (List (List Nat)))
      (fee : Nat) (emulated_internally : Bool)
  deriving DecidableEq

/-! ### `types::TreeMap`

A sorted unique-key map; modelled as an association list whose `insert`
replaces an existing binding.  Only `get`, `insert` and key iteration are
used by the embedded code. -/

/-- `TreeMap::get`. -/
def tmGet {β : Type} (m : List (Nat × β)) (k : Nat) : Option β :=
  match m with
  | [] => none
  | (k', v) :: rest => if k' = k then some v else tmGet rest k

/-- `TreeMap::insert` (replace-or-add). -/
def tmInsert {β : Type} (m : List (Nat × β)) (k : Nat) (v : β) : List (Nat × β) :=
  match m with
  | [] => [(k, v)]
  | (k', v') :: rest =>
      if k' = k then (k', v) :: rest else (k', v') :: tmInsert rest k v

theorem tmGet_tmInsert_self {β : Type} (m : List (Nat × β)) (k : Nat) (v : β) :
    tmGet (tmInsert m k v) k = some v := by
  induction m with
  | nil => simp [tmInsert, tmGet]
  | cons hd tl ih =>
      obtain ⟨k', v'⟩ := hd
      by_cases h : k' = k <;> simp [tmInsert, tmGet, h, ih]

theorem tmGet_tmInsert_ne {β : Type} (m : List (Nat × β)) (k k' : Nat) (v : β)
    (h : k ≠ k') : tmGet (tmInsert m k v) k' = tmGet m k' := by
  induction m with
  | nil => simp [tmInsert, tmGet, h]
  | cons hd tl ih =>
      obtain ⟨k₀, v₀⟩ := hd
      by_cases h₀ : k₀ = k
      · subst h₀; simp [tmInsert, tmGet, h]
      · simp [tmInsert, h₀, tmGet, ih]

/-! ### `account::state` - the continuation record (`StateAccount`) -/

/-- `account::state::AccountRevision`: either a monotone per-account counter
(for accounts this program owns and versions) or a content hash for foreign
accounts. -/
inductive AccountRevisionM where
  | revision (n : Nat)
  | hash (h : Nat)
  deriving DecidableEq

/-- One account passed into `restore` / the revision-update loop.  `fresh` is
the value `AccountRevision::new(program_id, info)` computes from the
account's current owner/lamports/data; `AccountRevision::new` is pure and
deterministic in those bytes, so the recomputed fingerprint is carried as a
field rather than re-deriving the hash. -/
structure AccountInfoM where
  key : Pubkey
  fresh : AccountRevisionM
  deriving DecidableEq

/-- The gas-relevant accessors of `types::Transaction` used by
`StateAccount` (`gas_limit()`, `gas_price()`, `chain_id()`). -/
structure TrxM where
  gas_limit : Nat
  gas_price : Nat
  chain_id : Option Nat
  deriving DecidableEq

/-- `account::state::Data`: the fixed persistent fields of a continuation
record (owner / origin are opaque identities, kept for completeness). -/
structure StateData where
  owner : Pubkey
  transaction : TrxM
  origin : Address
  revisions : List (Pubkey × AccountRevisionM)
  touched_accounts : List (Pubkey × Nat)
  gas_used : Nat
  steps_executed : Nat
  deriving DecidableEq

/-- `restore`'s status result (`AccountsStatus`). -/
inductive AccountsStatus where
  | Ok
  | NeedRestart
  deriving DecidableEq

/-- The `is_touched_account` closure inside `StateAccount::restore`,
verbatim:
`touched_accounts.get(key).map(|counter| counter > &1).is_some()` -
note that the result of the `map` is discarded by `is_some`. -/
def is_touched_account (d : StateData) (key : Pubkey) : Bool :=
  (((tmGet d.touched_accounts key).map fun counter => decide (counter > 1))).isSome

/-- The comparison loop of `StateAccount::restore`: walk the accounts that
pass the `is_touched_account` filter, recompute each one's revision and
compare it with the stored entry, stopping at the first mismatch.
`none` models the panic of indexing `revisions[key]` on a missing key. -/
def checkTouched (d : StateData) : List AccountInfoM → Option AccountsStatus
  | [] => some AccountsStatus.Ok
  | a :: rest =>
      if is_touched_account d a.key then
        match tmGet d.revisions a.key with
        | none => none
        | some stored =>
            if stored ≠ a.fresh then some AccountsStatus.NeedRestart
            else checkTouched d rest
      else checkTouched d rest

/-- `StateAccount::restore` (the part after `from_account`): compare the
filtered accounts' fingerprints; on any mismatch return `NeedRestart` after
refreshing the stored revision of every account passed in. -/
def restoreM (d : StateData) (accounts : List AccountInfoM) :
    Option (StateData × AccountsStatus) :=
  match checkTouched d accounts with
  | none => none
  | some AccountsStatus.Ok => some (d, AccountsStatus.Ok)
  | some AccountsStatus.NeedRestart =>
      some
        ({ d with
            revisions :=
              accounts.foldl (fun m a => tmInsert m a.key a.fresh) d.revisions },
          AccountsStatus.NeedRestart)

theorem tmGet_foldl_not_mem (accounts : List AccountInfoM)
    (m : List (Pubkey × AccountRevisionM)) (k : Pubkey)
    (h : k ∉ accounts.map AccountInfoM.key) :
    tmGet (accounts.foldl (fun m a => tmInsert m a.key a.fresh) m) k = tmGet m k := by
  induction accounts generalizing m with
  | nil => rfl
  | cons a rest ih =>
      simp only [List.map_cons, List.mem_cons, not_or] at h
      simpa [List.foldl_cons, ih _ h.2] using
        tmGet_tmInsert_ne m a.key k a.fresh (fun he => h.1 he.symm)

theorem tmGet_foldl_mem (accounts : List AccountInfoM)
    (m : List (Pubkey × AccountRevisionM))
    (hnodup : (accounts.map AccountInfoM.key).Nodup) :
    ∀ a ∈ accounts,
      tmGet (accounts.foldl (fun m a => tmInsert m a.key a.fresh) m) a.key =
        some a.fresh := by
  induction accounts generalizing m with
  | nil => intro a ha; cases ha
  | cons hd rest ih =>
      intro a ha
      simp only [List.map_cons, List.nodup_cons] at hnodup
      rcases List.mem_cons.mp ha with h | h
      · subst h
        rw [List.foldl_cons, tmGet_foldl_not_mem rest _ a.key hnodup.1,
          tmGet_tmInsert_self]
      · exact ih _ hnodup.2 a h

/-- Concrete continuation record used to exhibit the `is_touched_account`
slip: account `7` was only read (accumulated weight `1`). -/
def c1Data : StateData :=
  { owner := 0, transaction := ⟨100, 0, none⟩, origin := 0,
    revisions := [(7, AccountRevisionM.revision 0)],
    touched_accounts := [(7, 1)],
    gas_used := 0, steps_executed := 0 }

/-- Claim C1 (code bug evaluation): an account whose accumulated
touched-account weight is exactly `1` (read-only) is nevertheless
fingerprint-compared by `StateAccount::restore`, because
`is_touched_account` discards the result of `counter > &1` under
`.is_some()`; with a changed revision, `restore` reports `NeedRestart`
where the claim (and the dead `> 1` comparison's evident intent) says the
account must not be compared at all. -/
theorem state_C1_weight_one_is_compared :
    tmGet c1Data.touched_accounts 7 = some 1 ∧
    is_touched_account c1Data 7 = true ∧
    restoreM c1Data [⟨7, AccountRevisionM.revision 1⟩] =
      some ({ c1Data with revisions := [(7, AccountRevisionM.revision 1)] },
        AccountsStatus.NeedRestart) := by
  refine ⟨rfl, rfl, ?_⟩
  rfl

/-- Claim C5: if the comparison loop of `restore` detects a fingerprint
mismatch on a compared account, `restore` returns `NeedRestart` and the
stored fingerprint of every account passed in is refreshed to the freshly
computed value; if no compared account mismatches, `restore` returns `Ok`
with the record (all stored fingerprints included) unchanged. -/
theorem state_C5_restore_mismatch_refreshes_all (d : StateData)
    (accounts : List AccountInfoM)
    (hnodup : (accounts.map AccountInfoM.key).Nodup) :
    (checkTouched d accounts = some AccountsStatus.NeedRestart →
      ∃ d', restoreM d accounts = some (d', AccountsStatus.NeedRestart) ∧
        (∀ a ∈ accounts, tmGet d'.revisions a.key = some a.fresh)) ∧
    (checkTouched d accounts = some AccountsStatus.Ok →
      restoreM d accounts = some (d, AccountsStatus.Ok)) := by
  constructor
  · intro h
    refine ⟨{ d with
        revisions :=
          accounts.foldl (fun m a => tmInsert m a.key a.fresh) d.revisions },
      ?_, ?_⟩
    · simp [restoreM, h]
    · exact tmGet_foldl_mem accounts d.revisions hnodup
  · intro h
    simp [restoreM, h]

/-- Witness for C5 at a concrete record: account `5` was written
(weight `2`), its revision changed from `0` to `1`; the mismatch is
detected and the stored fingerprint is refreshed. -/
theorem state_C5_witness :
    ∃ d', restoreM
        { owner := 0, transaction := ⟨100, 0, none⟩, origin := 0,
          revisions := [(5, AccountRevisionM.revision 0)],
          touched_accounts := [(5, 2)],
          gas_used := 0, steps_executed := 0 }
        [⟨5, AccountRevisionM.revision 1⟩] =
        some (d', AccountsStatus.NeedRestart) ∧
      (∀ a ∈ [(⟨5, AccountRevisionM.revision 1⟩ : AccountInfoM)],
        tmGet d'.revisions a.key = some a.fresh) :=
  (state_C5_restore_mismatch_refreshes_all _ _ (by decide)).1 (by decide)

/-! ### `executor::state` - the speculative action log (`ExecutorState`) -/

/-- The account-storage backend (`AccountStorage`) as consumed by
`ExecutorState`: pure read accessors plus the key-derivation maps used by
the `touch_*` helpers.  `is_precompile_extension` stands for
`PrecompiledContracts::is_precompile_extension`, a pure membership test on
a fixed address set defined outside the sources in scope.
`contract_chain_id` returns `none` where the Rust backend returns `Err`. -/
structure Backend where
  balance : Address → Nat → Nat
  code_size : Address → Nat
  contract_chain_id : Address → Option Nat
  contract_pubkey : Address → Pubkey
  balance_pubkey : Address → Nat → Pubkey
  storage_cell_pubkey : Address → Nat → Pubkey
  is_precompile_extension : Address → Bool

/-- `executor::state::ExecutorStateData`: the persistent executor state.
`actions` is the append-only action list (`Vector<Action>`, pushed at the
end, `truncate n` keeps the first `n`); `stack` is the call-depth snapshot
stack, modelled with its top at the head (Rust pushes/pops at the `Vec`'s
end).  `cacheAccounts` keeps only the keys of the cached
`OwnedAccountInfo`s (their contents are opaque to every claim) and
`cacheActionsOffset` is `Cache::actions_offset`; `touched` is the
`touched_accounts` counter map (`u64` counters; the source's
`checked_add(..).unwrap()` panics only beyond `2^64`, unreachable for the
weights of 1 and 2 added per touch, so the counter is left unbounded). -/
structure ExecState where
  actions : List Action
  stack : List Nat
  cacheAccounts : List Pubkey
  cacheActionsOffset : Nat
  touched : List (Pubkey × Nat)
  deriving DecidableEq

/-- `ExecutorState::touch_account`. -/
def touch_account (st : ExecState) (pubkey : Pubkey) (count : Nat) : ExecState :=
  { st with
      touched := tmInsert st.touched pubkey ((tmGet st.touched pubkey).getD 0 + count) }

/-- `ExecutorState::touch_contract` (write weight 2). -/
def touch_contract (be : Backend) (st : ExecState) (address : Address) : ExecState :=
  touch_account st (be.contract_pubkey address) 2

/-- `ExecutorState::touch_balance_indirect` (read weight 1). -/
def touch_balance_indirect (be : Backend) (st : ExecState) (address : Address)
    (chain_id : Nat) : ExecState :=
  touch_account st (be.balance_pubkey address chain_id) 1

/-- One fold step of `ExecutorState::balance_internal`: a `Transfer` on the
matching chain subtracts at the source and adds at the target (both, for a
self-transfer action); a `Burn` subtracts; `checked_sub`/`checked_add`
failures surface as `IntegerOverflow`. -/
def balanceStep (from_address : Address) (from_chain_id : Nat) (balance : Nat) :
    Action → Except EvmError Nat
  | Action.transfer source target chain_id value =>
      if from_chain_id = chain_id then
        match
          (if from_address = source then checkedSub balance value else some balance)
        with
        | none => Except.error EvmError.IntegerOverflow
        | some b =>
            match (if from_address = target then checkedAdd b value else some b) with
            | none => Except.error EvmError.IntegerOverflow
            | some b' => Except.ok b'
      else Except.ok balance
  | Action.burn source chain_id value =>
      if from_chain_id = chain_id ∧ from_address = source then
        match checkedSub balance value with
        | none => Except.error EvmError.IntegerOverflow
        | some b => Except.ok b
      else Except.ok balance
  | _ => Except.ok balance

/-- `ExecutorState::balance_internal`: the backend balance folded through
the pending transfer/burn actions, in recording order. -/
def balance_internal (be : Backend) (actions : List Action)
    (from_address : Address) (from_chain_id : Nat) : Except EvmError Nat :=
  actions.foldl
    (fun acc a => acc.bind fun b => balanceStep from_address from_chain_id b a)
    (Except.ok (be.balance from_address from_chain_id))

/-- First pending `EvmSetCode` for an address (forward scan, as in
`code_size` / `code`). -/
def findFirstCode (actions : List Action) (from_address : Address) :
    Option (List Nat) :=
  match actions with
  | [] => none
  | Action.evmSetCode address _ code :: rest =>
      if from_address = address then some code else findFirstCode rest from_address
  | _ :: rest => findFirstCode rest from_address

/-- Last pending `EvmSetCode`'s chain id for an address
(`iter().rev()` scan, as in `contract_chain_id`). -/
def findLastCodeChainId (actions : List Action) (contract : Address) : Option Nat :=
  match actions with
  | [] => none
  | Action.evmSetCode address chain_id _ :: rest =>
      match findLastCodeChainId rest contract with
      | some c => some c
      | none => if contract = address then some chain_id else none
  | _ :: rest => findLastCodeChainId rest contract

/-- `ExecutorState::code_size` (threads the `touch_contract` side effect;
precompile extensions short-circuit to 1 before any touch). -/
def code_sizeS (be : Backend) (st : ExecState) (from_address : Address) :
    ExecState × Nat :=
  if be.is_precompile_extension from_address then (st, 1)
  else
    let st' := touch_contract be st from_address
    match findFirstCode st'.actions from_address with
    | some code => (st', code.length)
    | none => (st', be.code_size from_address)

/-- `ExecutorState::contract_chain_id` (threads the `touch_contract` side
effect; `none` models the backend's `Err`). -/
def contract_chain_idS (be : Backend) (st : ExecState) (contract : Address) :
    ExecState × Option Nat :=
  let st' := touch_contract be st contract
  match findLastCodeChainId st'.actions contract with
  | some chain_id => (st', some chain_id)
  | none => (st', be.contract_chain_id contract)

/-- `ExecutorState::transfer`.  Returns the post-call state (touch-counter
side effects persist on failure) together with the call's result. -/
def transfer (be : Backend) (st : ExecState) (source target : Address)
    (chain_id value : Nat) : ExecState × Except EvmError Unit :=
  if value = 0 then (st, Except.ok ())
  else
    let st1 := touch_contract be st target
    let r2 := contract_chain_idS be st1 target
    let st2 := r2.1
    let target_chain_id := r2.2.getD chain_id
    let r3 := code_sizeS be st2 target
    let st3 := r3.1
    let csz := r3.2
    if 0 < csz ∧ target_chain_id ≠ chain_id then
      (st3, Except.error (EvmError.InvalidTransferToken source chain_id))
    else if source = target then (st3, Except.ok ())
    else
      let st4 := touch_balance_indirect be st3 source chain_id
      match balance_internal be st4.actions source chain_id with
      | Except.error e => (st4, Except.error e)
      | Except.ok balance =>
          if balance < value then
            (st4, Except.error (EvmError.InsufficientBalance source chain_id value))
          else
            ({ st4 with
                actions := st4.actions ++ [Action.transfer source target chain_id value] },
              Except.ok ())

/-- `ExecutorState::burn`. -/
def burn (be : Backend) (st : ExecState) (source : Address)
    (chain_id value : Nat) : ExecState × Except EvmError Unit :=
  let st1 := touch_balance_indirect be st source chain_id
  match balance_internal be st1.actions source chain_id with
  | Except.error e => (st1, Except.error e)
  | Except.ok balance =>
      if balance < value then
        (st1, Except.error (EvmError.InsufficientBalance source chain_id value))
      else
        ({ st1 with actions := st1.actions ++ [Action.burn source chain_id value] },
          Except.ok ())

/-- Reverse-order scan for the most recent pending
`EvmSetTransientStorage` matching `(address, index)` (argument list is the
already-reversed action list). -/
def transientLookup (addr : Address) (idx : Nat) :
    List Action → Option Byte32
  | [] => none
  | Action.evmSetTransientStorage address index value :: rest =>
      if addr = address ∧ idx = index then some value
      else transientLookup addr idx rest
  | _ :: rest => transientLookup addr idx rest

/-- `ExecutorState::transient_storage`: scans the pending actions from most
recent to oldest and falls back to the all-zero word - by construction it
never consults the backing storage (no `Backend` argument exists on this
path in the source either). -/
def transient_storage (st : ExecState) (from_address : Address)
    (from_index : Nat) : Byte32 :=
  (transientLookup from_address from_index st.actions.reverse).getD 0

/-- `ExecutorState::set_transient_storage` (always `Ok`). -/
def set_transient_storage (st : ExecState) (address : Address) (index : Nat)
    (value : Byte32) : ExecState :=
  { st with actions := st.actions ++ [Action.evmSetTransientStorage address index value] }

/-! #### snapshot / commit / revert -/

/-- One call into the Action Log, for reasoning about sequences of
`record` / `snapshot` / `commit_snapshot` / `revert_snapshot`. -/
inductive LogOp where
  | record (a : Action)
  | snapshot
  | commit
  | revert
  deriving DecidableEq

/-- `ExecutorState::snapshot`: push the current action-list length. -/
def snapshotOp (st : ExecState) : ExecState :=
  { st with stack := st.actions.length :: st.stack }

/-- `ExecutorState::commit_snapshot`: pop the stack
(`expect` panics - `none` - when empty). -/
def commitOp (st : ExecState) : Option ExecState :=
  match st.stack with
  | [] => none
  | _ :: rest => some { st with stack := rest }

/-- `ExecutorState::revert_snapshot`: pop the saved length, truncate the
action list back to it, clear the externally-fetched account cache; panics
(`none`) on an empty stack, and the final sanity `assert!` panics when the
stack just became empty but actions remain. -/
def revertOp (st : ExecState) : Option ExecState :=
  match st.stack with
  | [] => none
  | actions_len :: rest =>
      let st' :=
        { st with
            actions := st.actions.take actions_len
            stack := rest
            cacheAccounts := []
            cacheActionsOffset := 0 }
      if rest.isEmpty ∧ ¬ st'.actions.isEmpty then none else some st'

/-- Apply one log operation. -/
def applyOp (st : ExecState) : LogOp → Option ExecState
  | LogOp.record a => some { st with actions := st.actions ++ [a] }
  | LogOp.snapshot => some (snapshotOp st)
  | LogOp.commit => commitOp st
  | LogOp.revert => revertOp st

/-- Run a sequence of log operations (`none` once any step panics). -/
def runOps (st : ExecState) : List LogOp → Option ExecState
  | [] => some st
  | op :: rest =>
      match applyOp st op with
      | none => none
      | some st' => runOps st' rest

theorem runOps_append (st : ExecState) (l₁ l₂ : List LogOp) :
    runOps st (l₁ ++ l₂) =
      match runOps st l₁ with
      | none => none
      | some st' => runOps st' l₂ := by
  induction l₁ generalizing st with
  | nil => rfl
  | cons op rest ih =>
      simp only [List.cons_append, runOps]
      cases applyOp st op with
      | none => rfl
      | some st' => exact ih st'

/-- Interior of a snapshot scope: records and nested revert-closed groups,
in any arrangement. -/
inductive Inner : List LogOp → Prop where
  | nil : Inner []
  | act (a : Action) {t : List LogOp} : Inner t → Inner (LogOp.record a :: t)
  | grp {inner t : List LogOp} : Inner inner → Inner t →
      Inner (LogOp.snapshot :: (inner ++ LogOp.revert :: t))

/-- Top level consisting solely of well-nested snapshot groups, each closed
by a `revert` (every snapshot matched by a revert, no top-level records). -/
inductive Groups : List LogOp → Prop where
  | nil : Groups []
  | grp {inner t : List LogOp} : Inner inner → Groups t →
      Groups (LogOp.snapshot :: (inner ++ LogOp.revert :: t))

theorem inner_run {inner : List LogOp} (h : Inner inner) :
    ∀ st : ExecState, st.stack ≠ [] →
      ∃ st', runOps st inner = some st' ∧ st'.stack = st.stack ∧
        ∃ extra, st'.actions = st.actions ++ extra := by
  induction h with
  | nil =>
      intro st _
      exact ⟨st, rfl, rfl, [], (List.append_nil _).symm⟩
  | act a ht ih =>
      intro st hst
      obtain ⟨st', hrun, hstack, extra, hact⟩ :=
        ih { st with actions := st.actions ++ [a] } hst
      refine ⟨st', ?_, hstack, [a] ++ extra, ?_⟩
      · simpa [runOps, applyOp] using hrun
      · simpa [List.append_assoc] using hact
  | grp hinner ht ih_inner ih_t =>
      intro st hst
      set st₁ : ExecState := snapshotOp st with hst₁
      obtain ⟨st₂, hrun₂, hstack₂, extra, hact₂⟩ :=
        ih_inner st₁ (by simp [hst₁, snapshotOp])
      have hstack₂' : st₂.stack = st.actions.length :: st.stack := by
        simpa [hst₁, snapshotOp] using hstack₂
      have hact₂' : st₂.actions = st.actions ++ extra := by
        simpa [hst₁, snapshotOp] using hact₂
      set st₃ : ExecState :=
        { st₂ with
            actions := st₂.actions.take st.actions.length
            stack := st.stack
            cacheAccounts := []
            cacheActionsOffset := 0 } with hst₃
      have hrevert : revertOp st₂ = some st₃ := by
        rw [revertOp, hstack₂']
        simp only [hst₃]
        rw [if_neg]
        simp only [List.isEmpty_iff, not_and]
        intro hrest
        exact absurd hrest hst
      have hact₃ : st₃.actions = st.actions := by
        simp [hst₃, hact₂', List.take_left]
      obtain ⟨st₄, hrun₄, hstack₄, extra₂, hact₄⟩ := ih_t st₃ (by simp [hst₃]; exact hst)
      refine ⟨st₄, ?_, ?_, extra₂, ?_⟩
      · show runOps st (LogOp.snapshot :: (_ ++ LogOp.revert :: _)) = some st₄
        simp only [runOps, applyOp]
        rw [runOps_append]
        have : runOps st₁ _ = some st₂ := hrun₂
        rw [this]
        simp only [runOps, applyOp, hrevert]
        exact hrun₄
      · simp [hstack₄, hst₃]
      · rw [hact₄, hact₃]

theorem groups_runOps {ops : List LogOp} (hg : Groups ops)
    (st st' : ExecState) (hstack : st.stack = [])
    (hrun : runOps st ops = some st') :
    st'.actions = st.actions ∧ st'.stack = [] := by
  induction hg generalizing st st' with
  | nil =>
      cases hrun
      exact ⟨rfl, hstack⟩
  | grp hinner ht ih =>
      rename_i inner t
      simp only [runOps, applyOp] at hrun
      rw [runOps_append] at hrun
      obtain ⟨st₂, hrun₂, hstack₂, extra, hact₂⟩ :=
        inner_run hinner (snapshotOp st) (by simp [snapshotOp])
      rw [hrun₂] at hrun
      simp only [runOps] at hrun
      have hstack₂' : st₂.stack = st.actions.length :: ([] : List Nat) := by
        rw [hstack₂]; simp [snapshotOp, hstack]
      have hact₂' : st₂.actions = st.actions ++ extra := by
        simpa [snapshotOp] using hact₂
      rw [applyOp, revertOp, hstack₂'] at hrun
      have htake : st₂.actions.take st.actions.length = st.actions := by
        rw [hact₂']; exact List.take_left _ _
      simp only [htake, List.isEmpty_nil, true_and] at hrun
      by_cases hanil : st.actions = []
      · have hT : st.actions.isEmpty = true := by simp [hanil]
        rw [hT] at hrun
        simp at hrun
        obtain ⟨h₁, h₂⟩ := ih _ st' rfl hrun
        exact ⟨h₁, h₂⟩
      · have hne : st.actions.isEmpty = false := by
          simpa [List.isEmpty_iff] using hanil
        rw [hne] at hrun
        simp at hrun

theorem runOps_records (st : ExecState) (rs : List Action) :
    runOps st (rs.map LogOp.record) = some { st with actions := st.actions ++ rs } := by
  induction rs generalizing st with
  | nil => simp [runOps]
  | cons r rest ih =>
      simp only [List.map_cons, runOps, applyOp]
      rw [ih]
      simp [List.append_assoc]

/-- Claim C2 (amended), the provable direction of the round-trip law: from
a state whose snapshot stack is empty, run any records followed by a
sequence in which every `snapshot` is matched by a `revert` (well-nested,
all scopes closed, every later `record` inside some scope); if the Action
Log executes this without panicking, the final action list - and hence its
length - is exactly the action list as it stood before the first
`snapshot` (the initial list plus the leading records). -/
theorem executor_C2_revert_roundtrip (rs : List Action) {ops : List LogOp}
    (hg : Groups ops) (st st' : ExecState) (hstack : st.stack = [])
    (hrun : runOps st (rs.map LogOp.record ++ ops) = some st') :
    st'.actions = st.actions ++ rs ∧ st'.stack = [] := by
  rw [runOps_append, runOps_records] at hrun
  exact groups_runOps hg { st with actions := st.actions ++ rs } st'
    (by simp [hstack]) hrun

/-- Bool-level rendering of "every `snapshot` in the sequence was matched
by a `revert`" (well-nested, no `commit` closes a scope, depth returns to
zero). -/
def allRevertClosed : List LogOp → Nat → Bool
  | [], d => d == 0
  | LogOp.record _ :: t, d => allRevertClosed t d
  | LogOp.snapshot :: t, d => allRevertClosed t (d + 1)
  | LogOp.commit :: _, _ => false
  | LogOp.revert :: t, d + 1 => allRevertClosed t d
  | LogOp.revert :: _, 0 => false

/-- The empty executor state. -/
def execInit : ExecState := ⟨[], [], [], 0, []⟩

/-- Counterexample to claim C2 as stated: the sequence
`[snapshot, commit]`, run from the empty log, preserves the action-list
length (the state is even unchanged up to the popped stack), yet its
`snapshot` is matched by a `commit`, not a `revert` - the claimed "if and
only if" fails at this input. -/
theorem executor_C2_counterexample :
    ¬ ((((runOps execInit [LogOp.snapshot, LogOp.commit]).map
          fun s => s.actions.length) = some execInit.actions.length) ↔
        allRevertClosed [LogOp.snapshot, LogOp.commit] 0 = true) := by
  decide

/-- Witness for the amended C2 at a concrete run:
`snapshot; record; (snapshot; record; revert); record; revert` from the
empty log executes without panic and restores the empty action list.
(A nonempty record prefix before the first snapshot forces the outermost
revert's sanity `assert!` to panic, so a non-vacuous run has an empty
prefix.) -/
theorem executor_C2_witness :
    runOps execInit
        [LogOp.snapshot, LogOp.record (Action.evmIncrementNonce 1 1),
          LogOp.snapshot, LogOp.record (Action.evmIncrementNonce 2 2),
          LogOp.revert, LogOp.record (Action.evmIncrementNonce 3 3),
          LogOp.revert] =
      some execInit ∧
    execInit.actions = execInit.actions ++ [] ∧ execInit.stack = [] :=
  ⟨by decide,
    executor_C2_revert_roundtrip []
      (Groups.grp
        (Inner.act (Action.evmIncrementNonce 1 1)
          (Inner.grp (Inner.act (Action.evmIncrementNonce 2 2) Inner.nil)
            (Inner.act (Action.evmIncrementNonce 3 3) Inner.nil)))
        Groups.nil)
      execInit execInit rfl (by decide)⟩

/-! ### `StateAccount` gas metering (`use_gas` / `consume_gas`) -/

/-- An `OperatorBalanceAccount` as seen by `consume_gas`: its fee-token
chain id and its token balance. -/
structure OperatorBalanceM where
  chain_id : Nat
  balance : Nat
  deriving DecidableEq

/-- Modelled from the spec: `OperatorBalanceAccount::mint` (§4.4
"mints the resulting tokens into an operator-controlled balance") - the
mint body lives outside the sources in scope; it credits the token amount
to the balance. -/
def mintOp (ob : OperatorBalanceM) (tokens : Nat) : OperatorBalanceM :=
  { ob with balance := ob.balance + tokens }

/-- `StateAccount::use_gas`: zero amounts are free; otherwise the gas
counter advances by `saturating_add`, failing with `OutOfGas` when the new
total exceeds the transaction's gas limit (the counter is only written
when the check passes); the returned token cost is
`amount.checked_mul(gas_price)`, whose overflow surfaces as
`IntegerOverflow` *after* the counter was already advanced. -/
def use_gas (d : StateData) (amount : Nat) : StateData × Except EvmError Nat :=
  if amount = 0 then (d, Except.ok 0)
  else
    let total_gas_used := satAdd d.gas_used amount
    if d.transaction.gas_limit < total_gas_used then
      (d, Except.error (EvmError.OutOfGas d.transaction.gas_limit total_gas_used))
    else
      let d' := { d with gas_used := total_gas_used }
      match checkedMul amount d.transaction.gas_price with
      | some tokens => (d', Except.ok tokens)
      | none => (d', Except.error EvmError.IntegerOverflow)

/-- `StateAccount::consume_gas` (with `DEFAULT_CHAIN_ID` passed explicitly,
its concrete value being configuration outside the sources in scope):
charge the gas, then mint the nonzero token cost to the operator balance
after checking its fee-token chain id against the transaction's. -/
def consume_gas (defaultChainId : Nat) (d : StateData)
    (receiver : Option OperatorBalanceM) (amount : Nat) :
    (StateData × Option OperatorBalanceM) × Except EvmError Unit :=
  match use_gas d amount with
  | (d', Except.error e) => ((d', receiver), Except.error e)
  | (d', Except.ok tokens) =>
      if tokens = 0 then ((d', receiver), Except.ok ())
      else
        match receiver with
        | none => ((d', none), Except.error EvmError.OperatorBalanceMissing)
        | some operator_balance =>
            let trx_chain_id := d.transaction.chain_id.getD defaultChainId
            if operator_balance.chain_id ≠ trx_chain_id then
              ((d', some operator_balance),
                Except.error EvmError.OperatorBalanceInvalidChainId)
            else
              ((d', some (mintOp operator_balance tokens)), Except.ok ())

/-- Transaction with the largest representable gas limit, used to exhibit
the saturation corner of claim C3. -/
def c3Trx : TrxM := { gas_limit := U256MAX, gas_price := 0, chain_id := none }

/-- Continuation-record state holding `c3Trx` with `gas_used = g`. -/
def c3Data (g : Nat) : StateData :=
  { owner := 0, transaction := c3Trx, origin := 0, revisions := [],
    touched_accounts := [], gas_used := g, steps_executed := 0 }

/-- Counterexample to claim C3 as stated: with a declared gas limit of
`U256::MAX`, two `consume_gas` calls of `U256::MAX` each succeed - the
saturating accumulator caps at the limit - although their cumulative sum
exceeds the limit; the crossing (second) call returns `Ok`, not
`OutOfGas`. -/
theorem state_C3_counterexample :
    consume_gas 0 (c3Data 0) none U256MAX = ((c3Data U256MAX, none), Except.ok ()) ∧
    consume_gas 0 (c3Data U256MAX) none U256MAX =
      ((c3Data U256MAX, none), Except.ok ()) ∧
    c3Trx.gas_limit < U256MAX + U256MAX := by
  refine ⟨?_, ?_, ?_⟩
  · rfl
  · rfl
  · show U256MAX < U256MAX + U256MAX
    have : 0 < U256MAX := by norm_num [U256MAX]
    omega

/-- Claim C3 (amended): provided the declared gas limit is below
`U256::MAX`, a `consume_gas` call whose amount would push the cumulative
usage past the limit fails with `OutOfGas`, leaving the gas counter and
the operator balance untouched; on any outcome the cumulative `gas_used`
never exceeds the limit; and a successful call advances `gas_used` by
exactly the amount, so across a sequence of successful calls `gas_used`
is the true sum of the amounts. -/
theorem state_C3_amended (defaultChainId : Nat) (d : StateData)
    (receiver : Option OperatorBalanceM) (amount : Nat)
    (hinv : d.gas_used ≤ d.transaction.gas_limit) :
    (d.transaction.gas_limit < U256MAX →
      d.transaction.gas_limit < d.gas_used + amount →
      consume_gas defaultChainId d receiver amount =
        ((d, receiver),
          Except.error
            (EvmError.OutOfGas d.transaction.gas_limit (satAdd d.gas_used amount)))) ∧
    ((consume_gas defaultChainId d receiver amount).1.1.gas_used ≤
      d.transaction.gas_limit) ∧
    (d.transaction.gas_limit < U256MAX →
      (consume_gas defaultChainId d receiver amount).2 = Except.ok () →
      (consume_gas defaultChainId d receiver amount).1.1.gas_used =
        d.gas_used + amount) := by
  have hsat : ∀ h : ¬ d.transaction.gas_limit < satAdd d.gas_used amount,
      d.transaction.gas_limit < U256MAX → satAdd d.gas_used amount = d.gas_used + amount := by
    intro h hmax
    push_neg at h
    rcases min_cases (d.gas_used + amount) U256MAX with ⟨he, _⟩ | ⟨he, hle⟩
    · exact he
    · rw [satAdd, he] at h
      omega
  constructor
  · intro hmax hcross
    have hzero : amount ≠ 0 := by omega
    have hlt : d.transaction.gas_limit < satAdd d.gas_used amount := by
      by_contra h
      rw [hsat h hmax] at h
      omega
    simp [consume_gas, use_gas, hzero, hlt]
  constructor
  · by_cases hzero : amount = 0
    · simpa [consume_gas, use_gas, hzero] using hinv
    · by_cases hlt : d.transaction.gas_limit < satAdd d.gas_used amount
      · simpa [consume_gas, use_gas, hzero, hlt] using hinv
      · push_neg at hlt
        rcases hmul : checkedMul amount d.transaction.gas_price with _ | tokens
        · simpa [consume_gas, use_gas, hzero, not_lt.mpr hlt, hmul] using hlt
        · by_cases htok : tokens = 0
          · simpa [consume_gas, use_gas, hzero, not_lt.mpr hlt, hmul, htok] using hlt
          · rcases receiver with _ | ob
            · simpa [consume_gas, use_gas, hzero, not_lt.mpr hlt, hmul, htok] using hlt
            · by_cases hchain :
                  ob.chain_id ≠ d.transaction.chain_id.getD defaultChainId
              · simpa [consume_gas, use_gas, hzero, not_lt.mpr hlt, hmul, htok,
                  hchain] using hlt
              · simpa [consume_gas, use_gas, hzero, not_lt.mpr hlt, hmul, htok,
                  hchain] using hlt
  · intro hmax hok
    by_cases hzero : amount = 0
    · simp [consume_gas, use_gas, hzero]
    · by_cases hlt : d.transaction.gas_limit < satAdd d.gas_used amount
      · exfalso
        simp [consume_gas, use_gas, hzero, hlt] at hok
      · have heq := hsat hlt hmax
        have hlt' := hlt
        rw [heq] at hlt'
        rcases hmul : checkedMul amount d.transaction.gas_price with _ | tokens
        · exfalso
          simp [consume_gas, use_gas, hzero, hlt, hmul] at hok
        · by_cases htok : tokens = 0
          · simp [consume_gas, use_gas, hzero, hlt, hmul, htok, heq, hlt']
          · rcases receiver with _ | ob
            · exfalso
              simp [consume_gas, use_gas, hzero, hlt, hmul, htok] at hok
            · by_cases hchain :
                  ob.chain_id ≠ d.transaction.chain_id.getD defaultChainId
              · exfalso
                simp [consume_gas, use_gas, hzero, hlt, hmul, htok, hchain] at hok
              · simp [consume_gas, use_gas, hzero, hlt, hmul, htok, hchain, heq, hlt']

/-- Witness for the amended C3 at concrete numbers: limit 100, 60 already
used, a further 50 crosses the limit and fails with `OutOfGas 100 110`
minting nothing; the state is returned untouched and stays within the
limit. -/
theorem state_C3_witness :
    (consume_gas 0
        { owner := 0, transaction := ⟨100, 1, none⟩, origin := 0, revisions := [],
          touched_accounts := [], gas_used := 60, steps_executed := 0 }
        (some ⟨0, 0⟩) 50 =
      (({ owner := 0, transaction := ⟨100, 1, none⟩, origin := 0, revisions := [],
          touched_accounts := [], gas_used := 60, steps_executed := 0 },
          some ⟨0, 0⟩),
        Except.error (EvmError.OutOfGas 100 (satAdd 60 50)))) ∧
    (consume_gas 0
        { owner := 0, transaction := ⟨100, 1, none⟩, origin := 0, revisions := [],
          touched_accounts := [], gas_used := 60, steps_executed := 0 }
        (some ⟨0, 0⟩) 50).1.1.gas_used ≤ 100 := by
  have h := state_C3_amended 0
    { owner := 0, transaction := ⟨100, 1, none⟩, origin := 0, revisions := [],
      touched_accounts := [], gas_used := 60, steps_executed := 0 }
    (some ⟨0, 0⟩) 50 (by norm_num)
  exact ⟨h.1 (by norm_num [U256MAX]) (by norm_num), h.2.1⟩

/-! ### Transfer / burn failure modes (claims C4, C9) and transient
storage (claim C10) -/

/-- The chain id `transfer` resolves for a target: the pending-action scan
of `contract_chain_id`, falling back to the backend. -/
def contractChainView (be : Backend) (actions : List Action)
    (contract : Address) : Option Nat :=
  match findLastCodeChainId actions contract with
  | some chain_id => some chain_id
  | none => be.contract_chain_id contract

/-- The code size `transfer` observes for a target: precompile extensions
report 1, then the pending-action scan, then the backend. -/
def codeSizeView (be : Backend) (actions : List Action)
    (from_address : Address) : Nat :=
  if be.is_precompile_extension from_address then 1
  else
    match findFirstCode actions from_address with
    | some code => code.length
    | none => be.code_size from_address

theorem touch_account_actions (st : ExecState) (k : Pubkey) (c : Nat) :
    (touch_account st k c).actions = st.actions := rfl

theorem touch_contract_actions (be : Backend) (st : ExecState) (a : Address) :
    (touch_contract be st a).actions = st.actions := rfl

theorem touch_balance_indirect_actions (be : Backend) (st : ExecState)
    (a : Address) (c : Nat) :
    (touch_balance_indirect be st a c).actions = st.actions := rfl

theorem contract_chain_idS_fst_actions (be : Backend) (st : ExecState)
    (a : Address) : (contract_chain_idS be st a).1.actions = st.actions := by
  cases h : findLastCodeChainId st.actions a <;>
    simp [contract_chain_idS, touch_contract, touch_account, h]

theorem contract_chain_idS_snd (be : Backend) (st : ExecState) (a : Address) :
    (contract_chain_idS be st a).2 = contractChainView be st.actions a := by
  cases h : findLastCodeChainId st.actions a <;>
    simp [contract_chain_idS, contractChainView, touch_contract, touch_account, h]

theorem code_sizeS_fst_actions (be : Backend) (st : ExecState) (a : Address) :
    (code_sizeS be st a).1.actions = st.actions := by
  by_cases hpre : be.is_precompile_extension a
  · simp [code_sizeS, hpre]
  · cases h : findFirstCode st.actions a <;>
      simp [code_sizeS, hpre, touch_contract, touch_account, h]

theorem code_sizeS_snd (be : Backend) (st : ExecState) (a : Address) :
    (code_sizeS be st a).2 = codeSizeView be st.actions a := by
  by_cases hpre : be.is_precompile_extension a
  · simp [code_sizeS, codeSizeView, hpre]
  · cases h : findFirstCode st.actions a <;>
      simp [code_sizeS, codeSizeView, hpre, touch_contract, touch_account, h]

/-- Backend used for the C4 counterexample: address 2 bears one byte of
code on chain 9. -/
def c4Be : Backend :=
  { balance := fun _ _ => 0
    code_size := fun _ => 1
    contract_chain_id := fun _ => some 9
    contract_pubkey := fun a => a
    balance_pubkey := fun a c => a + c
    storage_cell_pubkey := fun a i => a + i
    is_precompile_extension := fun _ => false }

/-- Counterexample to claim C4 as stated: a zero-value transfer to a
code-bearing target on a different fee-token chain returns `Ok` - the
`value == 0` early return precedes the `InvalidTransferToken` check, so
"fails whenever the target bears code and its chain id differs" is false
at this input. -/
theorem executor_C4_counterexample :
    (transfer c4Be execInit 1 2 5 0).2 = Except.ok () ∧
    0 < codeSizeView c4Be execInit.actions 2 ∧
    (contractChainView c4Be execInit.actions 2).getD 5 ≠ 5 := by
  refine ⟨rfl, by decide, by decide⟩

/-- Claim C4 (amended): for *nonzero* value, `transfer` fails with
`InvalidTransferToken` whenever the target bears code and its resolved
chain id differs from the transfer's; when there is no such token
mismatch and the source differs from the target, it fails with
`InsufficientBalance` whenever folding the pending transfer/burn actions
over the source's backing balance yields a result smaller than the value;
`burn` fails with `InsufficientBalance` under the same folded-balance
condition (no exemptions); in every failure case no action is appended to
the log (zero-value transfers and self-transfers return `Ok` before the
balance check, as recorded in claim C9). -/
theorem executor_C4_amended (be : Backend) (st : ExecState)
    (source target : Address) (chain_id value : Nat) :
    (value ≠ 0 → 0 < codeSizeView be st.actions target →
      (contractChainView be st.actions target).getD chain_id ≠ chain_id →
      (transfer be st source target chain_id value).2 =
          Except.error (EvmError.InvalidTransferToken source chain_id) ∧
        (transfer be st source target chain_id value).1.actions = st.actions) ∧
    (∀ b, value ≠ 0 →
      ¬(0 < codeSizeView be st.actions target ∧
          (contractChainView be st.actions target).getD chain_id ≠ chain_id) →
      source ≠ target →
      balance_internal be st.actions source chain_id = Except.ok b →
      b < value →
      (transfer be st source target chain_id value).2 =
          Except.error (EvmError.InsufficientBalance source chain_id value) ∧
        (transfer be st source target chain_id value).1.actions = st.actions) ∧
    (∀ b, balance_internal be st.actions source chain_id = Except.ok b →
      b < value →
      (burn be st source chain_id value).2 =
          Except.error (EvmError.InsufficientBalance source chain_id value) ∧
        (burn be st source chain_id value).1.actions = st.actions) := by
  refine ⟨?_, ?_, ?_⟩
  · intro hval hcode hchain
    constructor <;>
      simp [transfer, hval, contract_chain_idS_snd, contract_chain_idS_fst_actions,
        code_sizeS_snd, code_sizeS_fst_actions, touch_contract_actions, hcode, hchain]
  · intro b hval hmis hne hbal hlt
    simp only [transfer, if_neg hval, contract_chain_idS_snd,
      contract_chain_idS_fst_actions, code_sizeS_snd, code_sizeS_fst_actions,
      touch_contract_actions, touch_balance_indirect_actions]
    rw [if_neg hmis, if_neg hne, hbal]
    simp [hlt, touch_balance_indirect_actions, code_sizeS_fst_actions,
      contract_chain_idS_fst_actions, touch_contract_actions]
  · intro b hbal hlt
    simp only [burn, touch_balance_indirect_actions]
    rw [hbal]
    simp [hlt, touch_balance_indirect_actions]

/-- Witness for the amended C4: from an empty log against a backend where
the source's balance is 3, a transfer of 5 between distinct codeless
accounts fails with `InsufficientBalance` and appends nothing. -/
theorem executor_C4_witness :
    (transfer
        { balance := fun _ _ => 3, code_size := fun _ => 0,
          contract_chain_id := fun _ => none, contract_pubkey := fun a => a,
          balance_pubkey := fun a c => a + c,
          storage_cell_pubkey := fun a i => a + i,
          is_precompile_extension := fun _ => false }
        execInit 1 2 5 5).2 =
        Except.error (EvmError.InsufficientBalance 1 5 5) ∧
      (transfer
        { balance := fun _ _ => 3, code_size := fun _ => 0,
          contract_chain_id := fun _ => none, contract_pubkey := fun a => a,
          balance_pubkey := fun a c => a + c,
          storage_cell_pubkey := fun a i => a + i,
          is_precompile_extension := fun _ => false }
        execInit 1 2 5 5).1.actions = execInit.actions :=
  (executor_C4_amended
      { balance := fun _ _ => 3, code_size := fun _ => 0,
        contract_chain_id := fun _ => none, contract_pubkey := fun a => a,
        balance_pubkey := fun a c => a + c,
        storage_cell_pubkey := fun a i => a + i,
        is_precompile_extension := fun _ => false }
      execInit 1 2 5 5).2.1 3 (by decide) (by decide) (by decide) rfl
    (by decide)

/-- Claim C9: a self-transfer whose target resolves to the transfer's own
chain id returns `Ok` without appending any action - the `source == target`
early return precedes the balance fold, so the `InsufficientBalance` check
is bypassed for self-transfers of any value. -/
theorem executor_C9_self_transfer (be : Backend) (st : ExecState)
    (source : Address) (chain_id value : Nat)
    (hchain : (contractChainView be st.actions source).getD chain_id = chain_id) :
    (transfer be st source source chain_id value).2 = Except.ok () ∧
      (transfer be st source source chain_id value).1.actions = st.actions := by
  by_cases hval : value = 0
  · simp [transfer, hval]
  · constructor <;>
      simp [transfer, hval, contract_chain_idS_snd, contract_chain_idS_fst_actions,
        code_sizeS_snd, code_sizeS_fst_actions, touch_contract_actions, hchain]

/-- Witness for C9: the source holds balance 0 yet a self-transfer of
`10^9` succeeds and appends nothing. -/
theorem executor_C9_witness :
    (transfer
        { balance := fun _ _ => 0, code_size := fun _ => 0,
          contract_chain_id := fun _ => none, contract_pubkey := fun a => a,
          balance_pubkey := fun a c => a + c,
          storage_cell_pubkey := fun a i => a + i,
          is_precompile_extension := fun _ => false }
        execInit 3 3 5 1000000000).2 = Except.ok () ∧
      (transfer
        { balance := fun _ _ => 0, code_size := fun _ => 0,
          contract_chain_id := fun _ => none, contract_pubkey := fun a => a,
          balance_pubkey := fun a c => a + c,
          storage_cell_pubkey := fun a i => a + i,
          is_precompile_extension := fun _ => false }
        execInit 3 3 5 1000000000).1.actions = execInit.actions :=
  executor_C9_self_transfer
    { balance := fun _ _ => 0, code_size := fun _ => 0,
      contract_chain_id := fun _ => none, contract_pubkey := fun a => a,
      balance_pubkey := fun a c => a + c,
      storage_cell_pubkey := fun a i => a + i,
      is_precompile_extension := fun _ => false }
    execInit 3 5 1000000000 (by decide)

/-- Whether an action is a pending transient-storage write for the given
address and slot index. -/
def isTransientSet (act : Action) (addr : Address) (idx : Nat) : Bool :=
  match act with
  | Action.evmSetTransientStorage address index _ =>
      decide (addr = address ∧ idx = index)
  | _ => false

theorem transientLookup_of_no_match (addr : Address) (idx : Nat)
    (l : List Action) (h : ∀ act ∈ l, isTransientSet act addr idx = false) :
    transientLookup addr idx l = none := by
  induction l with
  | nil => rfl
  | cons act rest ih =>
      have hact := h act (List.mem_cons_self _ _)
      have hrest := ih fun a ha => h a (List.mem_cons_of_mem _ ha)
      cases act with
      | evmSetTransientStorage address index value =>
          simp only [isTransientSet, decide_eq_false_iff_not] at hact
          simp [transientLookup, hact, hrest]
      | transfer source target chain_id value => simpa [transientLookup] using hrest
      | burn source chain_id value => simpa [transientLookup] using hrest
      | evmIncrementNonce address chain_id => simpa [transientLookup] using hrest
      | evmSetCode address chain_id code => simpa [transientLookup] using hrest
      | evmSetStorage address index value => simpa [transientLookup] using hrest
      | externalInstruction p d a s f e => simpa [transientLookup] using hrest

/-- Claim C10: `transient_storage` returns the value of the most recent
pending `EvmSetTransientStorage` matching the queried address and index -
a freshly recorded write shadows everything older - and, when no pending
action matches, the all-zero word; by construction it never consults the
backing storage (the function takes no backend). -/
theorem executor_C10_transient_storage (st : ExecState) (a : Address)
    (i : Nat) (v : Byte32) (a' : Address) (i' : Nat) :
    (transient_storage (set_transient_storage st a i v) a' i' =
      if a' = a ∧ i' = i then v else transient_storage st a' i') ∧
    ((∀ act ∈ st.actions, isTransientSet act a' i' = false) →
      transient_storage st a' i' = 0) := by
  constructor
  · simp only [transient_storage, set_transient_storage, List.reverse_append,
      List.reverse_cons, List.reverse_nil, List.nil_append, List.cons_append,
      transientLookup]
    by_cases h : a' = a ∧ i' = i
    · simp [h]
    · simp [h]
  · intro h
    have h' : ∀ act ∈ st.actions.reverse, isTransientSet act a' i' = false := by
      intro act hact
      exact h act (List.mem_reverse.mp hact)
    simp [transient_storage, transientLookup_of_no_match a' i' _ h']

/-- Witness for C10: with a single unrelated pending action the lookup
falls through to the all-zero word, and a recorded transient write is
returned verbatim. -/
theorem executor_C10_witness :
    (transient_storage
        { actions := [Action.evmSetStorage 1 1 5], stack := [],
          cacheAccounts := [], cacheActionsOffset := 0, touched := [] } 2 3 = 0) ∧
    transient_storage
        (set_transient_storage
          { actions := [Action.evmSetStorage 1 1 5], stack := [],
            cacheAccounts := [], cacheActionsOffset := 0, touched := [] } 2 3 7)
        2 3 = 7 :=
  ⟨(executor_C10_transient_storage
      { actions := [Action.evmSetStorage 1 1 5], stack := [],
        cacheAccounts := [], cacheActionsOffset := 0, touched := [] }
      2 3 7 2 3).2 (by decide),
    by
      rw [(executor_C10_transient_storage
        { actions := [Action.evmSetStorage 1 1 5], stack := [],
          cacheAccounts := [], cacheActionsOffset := 0, touched := [] }
        2 3 7 2 3).1]
      decide⟩

/-! ### `instruction::transaction_step` - the step driver (`do_continue`)

`EVM_STEPS_MIN` and `EVM_STEPS_LAST_ITERATION_MAX` are configuration
constants whose defining module is outside the sources in scope; they are
passed to the model explicitly, as is the interpreter's behaviour: `evm.execute(step_count, ..)`
is an opaque call whose outcome `(exit_status, steps_returned)` becomes the
oracle argument `execRes`. -/

/-- What one `do_continue` call decides: the steps executed in this call,
the `results` passed to `finalize` (`none` means "treat as if no exit
occurred"), the exit status left stored in the executor state, whether the
pending actions were materialized (`apply_state_change` ran), and whether
the record was converted to Finalized (refund + tag flip). -/
structure ContinueReport where
  steps_executed : Nat
  results : Option ExitStatus
  stored_exit : Option ExitStatus
  applied : Bool
  finalized : Bool
  deriving DecidableEq

/-- The shared tail of `do_continue` (`deconstruct`, the last-iteration
discard, and `finalize`'s materialization decision): the result is
discarded when this call's step count exceeds the last-iteration maximum,
actions are materialized only when a result is present and allocation is
`Ready`, and only then is the record flipped to Finalized.  The step's own
gas charge (`consume_gas`, claim C3's model) and the treasury payment are
orthogonal bookkeeping elided here. -/
def continue_tail (lastIterMax : Nat) (stored : Option ExitStatus)
    (steps_executed : Nat) (allocReady : Bool) : ContinueReport :=
  let results := if lastIterMax < steps_executed then none else stored
  let status : Option ExitStatus :=
    match results with
    | some st => if allocReady then some st else none
    | none => none
  { steps_executed := steps_executed
    results := results
    stored_exit := stored
    applied := results.isSome && allocReady
    finalized := status.isSome }

/-- The execution phase of `do_continue`: with an exit status already
stored, zero steps run; otherwise the interpreter runs (its fallible
outcome is the oracle `execRes`) and any non-`StepLimit` exit is stored. -/
def do_continue_body (lastIterMax : Nat) (exit0 : Option ExitStatus)
    (execRes : Except EvmError (ExitStatus × Nat)) (allocReady : Bool) :
    Except EvmError ContinueReport :=
  match exit0 with
  | some e => Except.ok (continue_tail lastIterMax (some e) 0 allocReady)
  | none =>
      match execRes with
      | Except.error err => Except.error err
      | Except.ok (exit_status, steps_returned) =>
          Except.ok
            (continue_tail lastIterMax
              (if exit_status = ExitStatus.stepLimit then none else some exit_status)
              steps_returned allocReady)

/-- `do_continue` followed by `finalize`, as far as the persistent
record's fate is concerned, mirroring `transaction_step.rs`: the
minimum-step guard fires first, and only for a non-zero gas price. -/
def do_continue_model (stepsMin lastIterMax gas_price step_count : Nat)
    (exit0 : Option ExitStatus) (execRes : Except EvmError (ExitStatus × Nat))
    (allocReady : Bool) : Except EvmError ContinueReport :=
  if step_count < stepsMin ∧ 0 < gas_price then
    Except.error (EvmError.Custom "Step limit below minimum")
  else do_continue_body lastIterMax exit0 execRes allocReady

/-- Claim C6: when the interpreter reaches a terminal (non-`StepLimit`)
exit but this call executed more than `EVM_STEPS_LAST_ITERATION_MAX`
steps, the result is discarded for this call - nothing is materialized,
the record is not finalized and stays Active - even though the exit status
remains stored for the next call. -/
theorem step_C6_final_iteration_discard
    (stepsMin lastIterMax gas_price step_count : Nat) (e : ExitStatus) (n : Nat)
    (allocReady : Bool) (hguard : ¬(step_count < stepsMin ∧ 0 < gas_price))
    (hterm : e ≠ ExitStatus.stepLimit) (hover : lastIterMax < n) :
    do_continue_model stepsMin lastIterMax gas_price step_count none
        (Except.ok (e, n)) allocReady =
      Except.ok
        { steps_executed := n, results := none, stored_exit := some e,
          applied := false, finalized := false } := by
  simp [do_continue_model, do_continue_body, continue_tail, hguard, hterm, hover]

/-- Witness for C6 with `EVM_STEPS_MIN = 10`,
`EVM_STEPS_LAST_ITERATION_MAX = 500`: a `Stop` exit after 501 steps is
discarded even though allocation would be ready. -/
theorem step_C6_witness :
    do_continue_model 10 500 1 100 none (Except.ok (ExitStatus.stop, 501)) true =
      Except.ok
        { steps_executed := 501, results := none,
          stored_exit := some ExitStatus.stop, applied := false,
          finalized := false } :=
  step_C6_final_iteration_discard 10 500 1 100 ExitStatus.stop 501 true
    (by decide) (by decide) (by decide)

/-- Claim C7: a `continue` whose step budget is below `EVM_STEPS_MIN` on a
transaction with non-zero gas price is rejected outright - before the
interpreter runs, so the outcome is independent of whatever the
interpreter would have produced - while a zero-gas-price transaction is
exempt from the minimum. -/
theorem step_C7_minimum_step_enforcement
    (stepsMin lastIterMax gas_price step_count : Nat)
    (exit0 : Option ExitStatus)
    (execRes execRes' : Except EvmError (ExitStatus × Nat))
    (allocReady : Bool) :
    (step_count < stepsMin → 0 < gas_price →
      do_continue_model stepsMin lastIterMax gas_price step_count exit0 execRes
          allocReady =
        Except.error (EvmError.Custom "Step limit below minimum") ∧
      do_continue_model stepsMin lastIterMax gas_price step_count exit0 execRes
          allocReady =
        do_continue_model stepsMin lastIterMax gas_price step_count exit0
          execRes' allocReady) ∧
    (gas_price = 0 →
      do_continue_model stepsMin lastIterMax gas_price step_count exit0
          execRes allocReady =
        do_continue_body lastIterMax exit0 execRes allocReady) := by
  constructor
  · intro hlt hprice
    constructor <;> simp [do_continue_model, hlt, hprice]
  · intro hzero
    rw [do_continue_model, if_neg (by simp [hzero])]

/-- Witness for C7: with `EVM_STEPS_MIN = 10`, a budget of 3 at gas price 1
is rejected regardless of the interpreter oracle, and the same budget at
gas price 0 proceeds into the execution phase. -/
theorem step_C7_witness :
    (do_continue_model 10 500 1 3 none (Except.ok (ExitStatus.stop, 1)) true =
        Except.error (EvmError.Custom "Step limit below minimum") ∧
      do_continue_model 10 500 1 3 none (Except.ok (ExitStatus.stop, 1)) true =
        do_continue_model 10 500 1 3 none (Except.ok (ExitStatus.suicide, 77))
          true) ∧
    (do_continue_model 10 500 0 3 none (Except.ok (ExitStatus.stop, 1)) true =
      do_continue_body 500 none (Except.ok (ExitStatus.stop, 1)) true) :=
  ⟨(step_C7_minimum_step_enforcement 10 500 1 3 none
        (Except.ok (ExitStatus.stop, 1)) (Except.ok (ExitStatus.suicide, 77))
        true).1 (by decide) (by decide),
    (step_C7_minimum_step_enforcement 10 500 0 3 none
        (Except.ok (ExitStatus.stop, 1)) (Except.ok (ExitStatus.suicide, 77))
        true).2 rfl⟩

/-! ### Record lifecycle tags (claim C8) -/

/-- A continuation-record storage account reduced to what the tag check
sees: its key and its current tag byte. -/
structure StateRecord where
  key : Pubkey
  tag : Tag
  deriving DecidableEq

/-- Modelled from the spec: `account::validate_tag` (§4.3 "malformed /
foreign tag → fatal `InvalidTag`"; §6 "mismatch is a fatal
`InvalidTag`") - its defining module is outside the sources in scope.
`StateAccount::from_account` invokes it with expected tag `TAG_STATE`. -/
def validate_tag (expected : Tag) (r : StateRecord) : Except EvmError Unit :=
  if r.tag = expected then Except.ok ()
  else Except.error (EvmError.AccountInvalidTag r.key r.tag)

/-- `StateAccount::from_account`'s admission check: only a live
(`TAG_STATE`) record loads; every state-mutating entry point (including
`finalize`) goes through it. -/
def state_from_account (r : StateRecord) : Except EvmError Unit :=
  validate_tag Tag.state r

/-- Modelled from the spec: `StateFinalizedAccount::convert_from_state`
(§4.3 "`finalize(account)`: converts the record's tag to finalized") -
the conversion body is outside the sources in scope; afterwards the
account may only be read until garbage-collected. -/
def state_finalize (r : StateRecord) : StateRecord :=
  { r with tag := Tag.stateFinalized }

/-- Claim C8: loading a finalized record through
`StateAccount::from_account` fails with `AccountInvalidTag`, and a load
succeeds exactly on tag `TAG_STATE` - so `finalize` (whose refund and
mint run on a loaded live record) cannot be applied twice. -/
theorem state_C8_no_double_finalize (r : StateRecord) :
    state_from_account (state_finalize r) =
      Except.error (EvmError.AccountInvalidTag r.key Tag.stateFinalized) ∧
    (state_from_account r = Except.ok () ↔ r.tag = Tag.state) := by
  constructor
  · simp [state_from_account, validate_tag, state_finalize]
  · constructor
    · intro h
      by_contra hne
      simp [state_from_account, validate_tag, hne] at h
    · intro h
      simp [state_from_account, validate_tag, h]

end OpenEvm
